import Mathlib

/-!
Verification development for the CARLA snippet generator (genSnippet.py).

The definitions below are a shallow embedding of the source:
- the population classes Vehicle / Walker (spawn-time lidar placement,
  destroy order, the shared instance registries),
- the sensor mailboxes (one FIFO queue per vehicle, fed by the lidar
  callback, drained by the main loop with a bounded wait),
- the event loop of main (tick, controller activation at savedFrames = 1,
  per-vehicle pop + HDF5 writes, the Empty handler, savedFrames advance),
- the pedestrian-spawn retry loop with its 1000-attempt cap,
- the finally-block cleanup,
- the helpers transformPts and the point-cloud padding.

Machine floats of the source are modelled as exact numbers (Rat, or Real
where trigonometry is involved); HDF5 writes are modelled as an append-only
log of write events keyed by stream, frame index and actor index.
-/

/-- One sensor sample as pushed by Vehicle.lidar_callback: the world frame
identifier, the decoded point cloud (rows of x, y, z, intensity) and the
sensor transform at capture time (6 pose numbers). -/
structure Sample where
  frame : Nat
  cloud : List (ℚ × ℚ × ℚ × ℚ)
  pose : List ℚ
deriving DecidableEq, Repr

/-- The four datasets created in the HDF5 file. -/
inductive StreamId
  | pointCloud
  | lidarPose
  | vehicleBoundingbox
  | pedestrianBoundingbox
deriving DecidableEq, Repr

/-- One assignment f[stream][frame, actor] = ... performed by the event
loop. -/
structure WriteEvent where
  stream : StreamId
  frame : Int
  actor : Nat
deriving DecidableEq, Repr

/-- The configuration fields of argparse that the event loop reads. -/
structure Config where
  frames : Int
  burn : Int
  nvehicles : Nat
  npedestrians : Nat
  pointsPerCloud : Nat
  save : String
deriving DecidableEq, Repr

/-- The mutable state carried across iterations of the event loop:
savedFrames, the per-vehicle sensor queues, and observable effects
(controller-activation block executions, ticks issued, logged missing-data
errors, committed frame indices, store writes). -/
structure LoopState where
  savedFrames : Int
  queues : List (List Sample)
  activations : Nat
  ticks : Nat
  errors : Nat
  commits : List Int
  writes : List WriteEvent
deriving DecidableEq, Repr

/-- Result of the per-tick vehicle collection loop (the for over
enumerate(Vehicle.instances) inside the try). -/
structure CollectResult where
  queues : List (List Sample)
  events : List WriteEvent
  ok : Bool
  failIdx : Nat
deriving DecidableEq, Repr

/-- The for loop over Vehicle.instances: pop each vehicle's queue in
population order; a pop from an empty queue raises Empty after the 5 s
wait, aborting the loop at that vehicle (queues of later vehicles are left
untouched).  When savedFrames is non-negative and a save path is
configured, the three per-vehicle writes at [savedFrames, i] are emitted
before moving to the next vehicle.  `v` is the current savedFrames, `i`
the population index of the first queue in the list. -/
def collectVehicles (cfg : Config) (v : Int) : Nat → List (List Sample) → CollectResult
  | _, [] => ⟨[], [], true, 0⟩
  | i, [] :: rest => ⟨[] :: rest, [], false, i⟩
  | i, (_ :: q) :: rest =>
    let evts := if 0 ≤ v ∧ cfg.save ≠ "" then
        [⟨StreamId.pointCloud, v, i⟩, ⟨StreamId.lidarPose, v, i⟩,
         ⟨StreamId.vehicleBoundingbox, v, i⟩]
      else []
    let c := collectVehicles cfg v (i + 1) rest
    ⟨q :: c.queues, evts ++ c.events, c.ok, c.failIdx⟩

/-- The for loop over Walker.instances: one pedestrian_boundingbox write
per walker at [savedFrames, i], skipped during burn-in or when no save
path is configured. -/
def walkerWrites (cfg : Config) (v : Int) : List WriteEvent :=
  if 0 ≤ v ∧ cfg.save ≠ "" then
    (List.range cfg.npedestrians).map (fun i => ⟨StreamId.pedestrianBoundingbox, v, i⟩)
  else []

/-- The queues at the start of the collection phase of a tick: the samples
the sensors delivered for this tick (`arrivals`, one list per vehicle)
appended to whatever was left in each mailbox. -/
def tickQueues (arrivals : List (List Sample)) (st : LoopState) : List (List Sample) :=
  List.zipWith (· ++ ·) st.queues arrivals

/-- The collection result of one tick. -/
def tickCollect (cfg : Config) (arrivals : List (List Sample)) (st : LoopState) :
    CollectResult :=
  collectVehicles cfg st.savedFrames 0 (tickQueues arrivals st)

/-- One iteration of the event loop body: world.tick() (the arrivals land
in the mailboxes), the controller-activation block gated on
savedFrames == 1, the try block (vehicle collection and writes, then
walker writes), the Empty handler (log an error, savedFrames unchanged)
and the else branch (savedFrames += 1). -/
def tickStep (cfg : Config) (arrivals : List (List Sample)) (st : LoopState) : LoopState :=
  let activations := if st.savedFrames = 1 then st.activations + 1 else st.activations
  let c := tickCollect cfg arrivals st
  if c.ok then
    { savedFrames := st.savedFrames + 1
      queues := c.queues
      activations := activations
      ticks := st.ticks + 1
      errors := st.errors
      commits := st.commits ++ (if 0 ≤ st.savedFrames ∧ cfg.save ≠ "" then [st.savedFrames] else [])
      writes := st.writes ++ c.events ++ walkerWrites cfg st.savedFrames }
  else
    { savedFrames := st.savedFrames
      queues := c.queues
      activations := activations
      ticks := st.ticks + 1
      errors := st.errors + 1
      commits := st.commits
      writes := st.writes ++ c.events }

/-- The while loop of main: run tick iterations while savedFrames < frames,
consuming one entry of the arrival trace per tick.  The trace is a finite
prefix of the sensor behaviour; the loop stops early once savedFrames
reaches the configured frame count. -/
def runLoop (cfg : Config) : List (List (List Sample)) → LoopState → LoopState
  | [], st => st
  | a :: rest, st =>
    if st.savedFrames < cfg.frames then runLoop cfg rest (tickStep cfg a st) else st

/-- The loop state right before the event loop: savedFrames = -burn, all
mailboxes empty, no effects yet. -/
def initState (cfg : Config) : LoopState :=
  { savedFrames := -cfg.burn
    queues := List.replicate cfg.nvehicles []
    activations := 0
    ticks := 0
    errors := 0
    commits := []
    writes := [] }

/-- Arrival pattern of a tick on which every sensor delivers exactly one
sample. -/
def fullArrivals (nveh : Nat) (s : Sample) : List (List Sample) :=
  List.replicate nveh [s]

/-- A trace of L ticks on each of which every sensor delivers exactly one
sample (the timeout-free regime). -/
def fullTrace (L nveh : Nat) (s : Sample) : List (List (List Sample)) :=
  List.replicate L (fullArrivals nveh s)

/-- The event loop run from the initial state. -/
def runFromInit (cfg : Config) (s : Sample) (L : Nat) : LoopState :=
  runLoop cfg (fullTrace L cfg.nvehicles s) (initState cfg)

/-- The frame indices committed by n consecutive timeout-free ticks
starting at savedFrames = v: every non-negative index is committed when a
save path is configured. -/
def commitsOf (save : String) : Int → Nat → List Int
  | _, 0 => []
  | v, n + 1 => (if 0 ≤ v ∧ save ≠ "" then [v] else []) ++ commitsOf save (v + 1) n

/-- How many of n consecutive timeout-free ticks starting at
savedFrames = v execute the controller-activation block (gated on
savedFrames = 1). -/
def actsOf : Int → Nat → Nat
  | _, 0 => 0
  | v, n + 1 => (if v = 1 then 1 else 0) + actsOf (v + 1) n

/-- A sample with trivial content, used for concrete runs. -/
def sampleA : Sample := ⟨1, [], []⟩


/-! ### Helper lemmas: timeout-free ticks -/

theorem zipWith_replicate_left_right {α β γ : Type} (f : α → β → γ) (a : α) (b : β) :
    ∀ n, List.zipWith f (List.replicate n a) (List.replicate n b) = List.replicate n (f a b) := by
  intro n
  induction n with
  | zero => rfl
  | succ n ih => simp [List.replicate, ih]

/-- Popping from queues that each hold exactly one sample succeeds for
every vehicle and leaves every queue empty. -/
theorem collectVehicles_replicate (cfg : Config) (v : Int) (s : Sample) :
    ∀ (n i : Nat), ∃ evts,
      collectVehicles cfg v i (List.replicate n [s]) = ⟨List.replicate n [], evts, true, 0⟩ := by
  intro n
  induction n with
  | zero => intro i; exact ⟨[], rfl⟩
  | succ n ih =>
    intro i
    obtain ⟨evts, h⟩ := ih (i + 1)
    refine ⟨(if 0 ≤ v ∧ cfg.save ≠ "" then
        [⟨StreamId.pointCloud, v, i⟩, ⟨StreamId.lidarPose, v, i⟩,
         ⟨StreamId.vehicleBoundingbox, v, i⟩] else []) ++ evts, ?_⟩
    simp only [List.replicate, collectVehicles, h]

/-- A tick on which every sensor delivers exactly one sample, started with
all mailboxes empty: every pop succeeds, the mailboxes are empty again at
the end of the tick, savedFrames advances, no error is logged, and the
frame index is committed exactly when it is non-negative and a save path
is configured. -/
theorem tickStep_full (cfg : Config) (s : Sample) (st : LoopState)
    (hq : st.queues = List.replicate cfg.nvehicles []) :
    (tickStep cfg (fullArrivals cfg.nvehicles s) st).savedFrames = st.savedFrames + 1 ∧
    (tickStep cfg (fullArrivals cfg.nvehicles s) st).queues = List.replicate cfg.nvehicles [] ∧
    (tickStep cfg (fullArrivals cfg.nvehicles s) st).activations
      = st.activations + (if st.savedFrames = 1 then 1 else 0) ∧
    (tickStep cfg (fullArrivals cfg.nvehicles s) st).ticks = st.ticks + 1 ∧
    (tickStep cfg (fullArrivals cfg.nvehicles s) st).errors = st.errors ∧
    (tickStep cfg (fullArrivals cfg.nvehicles s) st).commits
      = st.commits ++ (if 0 ≤ st.savedFrames ∧ cfg.save ≠ "" then [st.savedFrames] else []) := by
  have hzip : tickQueues (fullArrivals cfg.nvehicles s) st
      = List.replicate cfg.nvehicles [s] := by
    rw [tickQueues, hq, fullArrivals, zipWith_replicate_left_right]
    rfl
  obtain ⟨evts, hcol⟩ := collectVehicles_replicate cfg st.savedFrames s cfg.nvehicles 0
  have hc : tickCollect cfg (fullArrivals cfg.nvehicles s) st
      = ⟨List.replicate cfg.nvehicles [], evts, true, 0⟩ := by
    rw [tickCollect, hzip, hcol]
  simp only [tickStep, hc]
  refine ⟨rfl, rfl, ?_, rfl, rfl, ?_⟩
  · show (if st.savedFrames = 1 then st.activations + 1 else st.activations) = _
    split <;> omega
  · rfl

/-- Characterization of a timeout-free run: starting with empty mailboxes
and savedFrames = frames - n, the loop consumes exactly n ticks of any
sufficiently long full trace and ends with savedFrames = frames, empty
mailboxes, no errors, and the commits and activation count accumulated
tick by tick. -/
theorem runLoop_full (cfg : Config) (s : Sample) :
    ∀ (n : Nat) (L : Nat) (st : LoopState),
      st.queues = List.replicate cfg.nvehicles [] →
      st.savedFrames = cfg.frames - n → n ≤ L →
      (runLoop cfg (fullTrace L cfg.nvehicles s) st).savedFrames = cfg.frames ∧
      (runLoop cfg (fullTrace L cfg.nvehicles s) st).queues = List.replicate cfg.nvehicles [] ∧
      (runLoop cfg (fullTrace L cfg.nvehicles s) st).ticks = st.ticks + n ∧
      (runLoop cfg (fullTrace L cfg.nvehicles s) st).errors = st.errors ∧
      (runLoop cfg (fullTrace L cfg.nvehicles s) st).commits
        = st.commits ++ commitsOf cfg.save st.savedFrames n ∧
      (runLoop cfg (fullTrace L cfg.nvehicles s) st).activations
        = st.activations + actsOf st.savedFrames n := by
  intro n
  induction n with
  | zero =>
    intro L st hq hv _
    have hstop : ¬ st.savedFrames < cfg.frames := by omega
    have hrun : runLoop cfg (fullTrace L cfg.nvehicles s) st = st := by
      cases L with
      | zero => rfl
      | succ L => simp only [fullTrace, List.replicate, runLoop, if_neg hstop]
    rw [hrun]
    exact ⟨by omega, hq, by simp, rfl, by simp [commitsOf], by simp [actsOf]⟩
  | succ n ih =>
    intro L st hq hv hL
    obtain ⟨L, rfl⟩ : ∃ L0, L = L0 + 1 := ⟨L - 1, by omega⟩
    have hgo : st.savedFrames < cfg.frames := by omega
    have hrun : runLoop cfg (fullTrace (L + 1) cfg.nvehicles s) st
        = runLoop cfg (fullTrace L cfg.nvehicles s)
            (tickStep cfg (fullArrivals cfg.nvehicles s) st) := by
      simp only [fullTrace, List.replicate, runLoop, if_pos hgo]
    obtain ⟨h1, h2, h3, h4, h5, h6⟩ := tickStep_full cfg s st hq
    have hv' : (tickStep cfg (fullArrivals cfg.nvehicles s) st).savedFrames
        = cfg.frames - n := by omega
    obtain ⟨g1, g2, g3, g4, g5, g6⟩ :=
      ih L (tickStep cfg (fullArrivals cfg.nvehicles s) st) h2 hv' (by omega)
    rw [hrun]
    have harg : cfg.frames - (n + 1 : Nat) + 1 = cfg.frames - (n : Nat) := by
      push_cast; ring
    refine ⟨g1, g2, ?_, ?_, ?_, ?_⟩
    · rw [g3, h4]; omega
    · rw [g4, h5]
    · rw [g5, h6, hv', hv]
      have hc : commitsOf cfg.save (cfg.frames - (n + 1 : Nat)) (n + 1)
          = (if 0 ≤ cfg.frames - (n + 1 : Nat) ∧ cfg.save ≠ ""
              then [cfg.frames - (n + 1 : Nat)] else [])
            ++ commitsOf cfg.save (cfg.frames - (n + 1 : Nat) + 1) n := rfl
      rw [hc, harg, List.append_assoc]
    · rw [g6, h3, hv', hv]
      have ha : actsOf (cfg.frames - (n + 1 : Nat)) (n + 1)
          = (if cfg.frames - (n + 1 : Nat) = 1 then 1 else 0)
            + actsOf (cfg.frames - (n + 1 : Nat) + 1) n := rfl
      rw [ha, harg]
      split <;> omega

/-- With a save path configured, the commits of n ticks starting at a
non-negative index are the n consecutive indices. -/
theorem commitsOf_nonneg (save : String) (hs : save ≠ "") :
    ∀ (n : Nat) (v : Int), 0 ≤ v →
      commitsOf save v n = (List.range n).map (fun j : Nat => v + (j : Int)) := by
  intro n
  induction n with
  | zero => intro v _; rfl
  | succ n ih =>
    intro v hv
    rw [commitsOf, if_pos ⟨hv, hs⟩, ih (v + 1) (by omega), List.range_succ_eq_map,
      List.map_cons, List.map_map, List.singleton_append]
    congr 1
    · omega
    · apply List.map_congr_left
      intro j _
      simp only [Function.comp_apply]
      push_cast
      ring

/-- Burn-in ticks commit nothing: n + b ticks starting at -b commit the
same indices as n ticks starting at 0. -/
theorem commitsOf_burn (save : String) :
    ∀ (b n : Nat), commitsOf save (-(b : Int)) (b + n) = commitsOf save 0 n := by
  intro b
  induction b with
  | zero => intro n; norm_num
  | succ b ih =>
    intro n
    have hstep : commitsOf save (-((b + 1 : Nat) : Int)) ((b + n) + 1)
        = (if 0 ≤ -((b + 1 : Nat) : Int) ∧ save ≠ ""
            then [-((b + 1 : Nat) : Int)] else [])
          ++ commitsOf save (-((b + 1 : Nat) : Int) + 1) (b + n) := rfl
    have harr : (b + 1) + n = (b + n) + 1 := by omega
    have hneg : ¬ (0 ≤ -((b + 1 : Nat) : Int) ∧ save ≠ "") := by
      rintro ⟨h, -⟩; omega
    have harg : -((b + 1 : Nat) : Int) + 1 = -(b : Int) := by push_cast; ring
    rw [harr, hstep, if_neg hneg, harg, ih n, List.nil_append]

/-- Ticks starting above savedFrames = 1 never run the activation block. -/
theorem actsOf_high : ∀ (n : Nat) (v : Int), 1 < v → actsOf v n = 0 := by
  intro n
  induction n with
  | zero => intro v _; rfl
  | succ n ih =>
    intro v hv
    rw [actsOf, if_neg (by omega), ih (v + 1) (by omega)]

/-- Closed form of the activation count: starting at savedFrames = v ≤ 1,
the block runs exactly once iff the run is long enough to reach
savedFrames = 1, i.e. iff n > 1 - v. -/
theorem actsOf_closed :
    ∀ (n : Nat) (v : Int), v ≤ 1 →
      actsOf v n = if 1 - v < (n : Int) then 1 else 0 := by
  intro n
  induction n with
  | zero =>
    intro v hv
    rw [actsOf, if_neg (by omega)]
  | succ n ih =>
    intro v hv
    by_cases h1 : v = 1
    · subst h1
      have h2 : actsOf (1 + 1) n = 0 := actsOf_high n (1 + 1) (by omega)
      rw [actsOf, h2, if_pos rfl, if_pos (by push_cast; omega)]
    · rw [actsOf, if_neg h1, ih (v + 1) (by omega)]
      have hiff : (1 - (v + 1) < (n : Int)) ↔ (1 - v < ((n + 1 : Nat) : Int)) := by
        push_cast
        omega
      rw [if_congr hiff rfl rfl, Nat.zero_add]

/-- Invariant of timeout-free runs: from empty mailboxes, any number of
full-delivery ticks leaves every mailbox empty. -/
theorem runLoop_full_queues (cfg : Config) (s : Sample) :
    ∀ (L : Nat) (st : LoopState), st.queues = List.replicate cfg.nvehicles [] →
      (runLoop cfg (fullTrace L cfg.nvehicles s) st).queues
        = List.replicate cfg.nvehicles [] := by
  intro L
  induction L with
  | zero => intro st hq; exact hq
  | succ L ih =>
    intro st hq
    show (runLoop cfg (fullArrivals cfg.nvehicles s :: fullTrace L cfg.nvehicles s)
        st).queues = _
    rw [runLoop]
    split
    · exact ih _ (tickStep_full cfg s st hq).2.1
    · exact hq

/-- C1 (amended): in a run in which every sensor delivers exactly one
sample on every tick (so no pop ever times out), the collection loop
consumes exactly one sample from every mailbox per tick and all mailboxes
are empty at every tick boundary.  The original claim is false for ticks
on which a pop times out: the for loop is aborted at the first empty
mailbox, so the mailboxes of vehicles after it are not drained
(see the counterexample). -/
theorem mailboxes_empty_no_timeout (cfg : Config) (s : Sample) (L : Nat) :
    (runFromInit cfg s L).queues = List.replicate cfg.nvehicles [] := by
  unfold runFromInit
  exact runLoop_full_queues cfg s L (initState cfg) rfl

/-- Two vehicles, no burn-in, no output file. -/
def cfgLeak : Config := ⟨5, 0, 2, 0, 1, ""⟩

/-- C1 (counterexample): two vehicles; on the one simulated tick sensor 0
delivers nothing (so its pop times out) and sensor 1 delivers exactly one
sample — every sensor produced at most one sample this tick.  At the tick
boundary vehicle 1's mailbox still holds its sample: the loop did not
drain every mailbox, contradicting the claim for timeout ticks. -/
theorem mailbox_not_drained_on_timeout :
    (([([] : List Sample), [sampleA]].all (fun q => q.length ≤ 1)) = true) ∧
    (runLoop cfgLeak [[[], [sampleA]]] (initState cfgLeak)).queues = [[], [sampleA]] ∧
    (runLoop cfgLeak [[[], [sampleA]]] (initState cfgLeak)).queues
      ≠ List.replicate cfgLeak.nvehicles [] := by
  exact ⟨by decide, by decide, by decide⟩

/-- C3: for every configured frame count F ≥ 0 and burn-in count B ≥ 0,
if no mailbox pop ever times out (modelled by every sensor delivering its
sample on every tick) and an output store is configured, the event loop
stops after exactly B + F iterations and commits exactly the frame
indices 0 .. F-1, in order, each exactly once. -/
theorem frames_committed_exact (cfg : Config) (s : Sample) (L : Nat)
    (hF : 0 ≤ cfg.frames) (hB : 0 ≤ cfg.burn) (hsave : cfg.save ≠ "")
    (hL : (cfg.burn + cfg.frames).toNat ≤ L) :
    (runFromInit cfg s L).ticks = (cfg.burn + cfg.frames).toNat ∧
    (runFromInit cfg s L).savedFrames = cfg.frames ∧
    (runFromInit cfg s L).commits
      = (List.range cfg.frames.toNat).map (fun j : Nat => (j : Int)) := by
  unfold runFromInit
  obtain ⟨g1, g2, g3, g4, g5, g6⟩ :=
    runLoop_full cfg s ((cfg.burn + cfg.frames).toNat) L (initState cfg) rfl
      (by simp only [initState]; omega) hL
  refine ⟨?_, g1, ?_⟩
  · rw [g3]
    simp [initState]
  · rw [g5]
    simp only [initState, List.nil_append]
    have hb : -cfg.burn = -((cfg.burn.toNat : Nat) : Int) := by omega
    have hn : (cfg.burn + cfg.frames).toNat = cfg.burn.toNat + cfg.frames.toNat := by
      omega
    rw [hb, hn, commitsOf_burn cfg.save cfg.burn.toNat cfg.frames.toNat,
      commitsOf_nonneg cfg.save hsave cfg.frames.toNat 0 (by omega)]
    apply List.map_congr_left
    intro j _
    omega

/-- C4 (amended): the controller-activation block runs on exactly the
iterations that begin with savedFrames = 1.  In a timeout-free run it
therefore runs exactly once when the configured frame count is at least 2
(regardless of burn-in), and never when the frame count is 0 or 1; it is
not tied to the first iteration after burn-in begins, and a timeout while
savedFrames = 1 makes it run again (the gate is re-evaluated). -/
theorem controller_activation_count (cfg : Config) (s : Sample) (L : Nat)
    (hF : 0 ≤ cfg.frames) (hB : 0 ≤ cfg.burn)
    (hL : (cfg.burn + cfg.frames).toNat ≤ L) :
    (runFromInit cfg s L).activations = if 2 ≤ cfg.frames then 1 else 0 := by
  unfold runFromInit
  obtain ⟨g1, g2, g3, g4, g5, g6⟩ :=
    runLoop_full cfg s ((cfg.burn + cfg.frames).toNat) L (initState cfg) rfl
      (by simp only [initState]; omega) hL
  rw [g6]
  simp only [initState]
  rw [actsOf_closed _ _ (by omega)]
  have hiff : (1 - -cfg.burn < (((cfg.burn + cfg.frames).toNat : Nat) : Int))
      ↔ (2 ≤ cfg.frames) := by omega
  rw [if_congr hiff rfl rfl, Nat.zero_add]

/-- One vehicle, one walker, a single recorded frame, no burn-in. -/
def cfgOneFrame : Config := ⟨1, 0, 1, 1, 1, ""⟩

/-- C4 (counterexample): with frame count 1 and burn-in 0, a complete
timeout-free run (savedFrames reaches the configured frame count) never
executes the controller-activation block, although a walker exists —
the claimed "exactly once, regardless of the configured frame count and
burn-in count" fails. -/
theorem controller_not_started_single_frame :
    (runFromInit cfgOneFrame sampleA 1).savedFrames = cfgOneFrame.frames ∧
    0 < cfgOneFrame.npedestrians ∧
    (runFromInit cfgOneFrame sampleA 1).activations = 0 := by
  exact ⟨by decide, by decide, by decide⟩

/-- One vehicle, one burn-in tick, two recorded frames, output configured. -/
def cfgSmall : Config := ⟨2, 1, 1, 0, 1, "o"⟩

/-- Witness: frames_committed_exact holds at a concrete configuration
(F = 2, B = 1, one vehicle, output configured, 3 ticks of trace). -/
theorem frames_committed_exact_witness :
    (0 ≤ cfgSmall.frames ∧ 0 ≤ cfgSmall.burn ∧ cfgSmall.save ≠ "" ∧
      (cfgSmall.burn + cfgSmall.frames).toNat ≤ 3) ∧
    ((runFromInit cfgSmall sampleA 3).ticks = (cfgSmall.burn + cfgSmall.frames).toNat ∧
     (runFromInit cfgSmall sampleA 3).savedFrames = cfgSmall.frames ∧
     (runFromInit cfgSmall sampleA 3).commits
       = (List.range cfgSmall.frames.toNat).map (fun j : Nat => (j : Int))) :=
  ⟨⟨by decide, by decide, by decide, by decide⟩,
   frames_committed_exact cfgSmall sampleA 3 (by decide) (by decide) (by decide) (by decide)⟩

/-- One vehicle, one walker, two recorded frames, no burn-in. -/
def cfgTwoFrames : Config := ⟨2, 0, 1, 1, 1, ""⟩

/-- Witness: controller_activation_count holds at a concrete
configuration (F = 2, B = 0: the block runs exactly once). -/
theorem controller_activation_count_witness :
    (0 ≤ cfgTwoFrames.frames ∧ 0 ≤ cfgTwoFrames.burn ∧
      (cfgTwoFrames.burn + cfgTwoFrames.frames).toNat ≤ 2) ∧
    (runFromInit cfgTwoFrames sampleA 2).activations
      = (if 2 ≤ cfgTwoFrames.frames then 1 else 0) :=
  ⟨⟨by decide, by decide, by decide⟩,
   controller_activation_count cfgTwoFrames sampleA 2 (by decide) (by decide) (by decide)⟩

/-- On a timeout, the failing index is at least the index of the first
queue handed to the collection loop. -/
theorem collectVehicles_fail_ge (cfg : Config) (v : Int) :
    ∀ (qs : List (List Sample)) (i : Nat),
      (collectVehicles cfg v i qs).ok = false →
      i ≤ (collectVehicles cfg v i qs).failIdx := by
  intro qs
  induction qs with
  | nil => intro i h; simp [collectVehicles] at h
  | cons q rest ih =>
    intro i h
    cases q with
    | nil => simp [collectVehicles]
    | cons s q =>
      simp only [collectVehicles] at h ⊢
      exact Nat.le_of_succ_le (ih (i + 1) h)

/-- On a timeout at vehicle failIdx, the write events already emitted
during the tick are exactly for vehicle indices in [i, failIdx), and none
of them touches the pedestrian stream. -/
theorem collectVehicles_fail_events (cfg : Config) (v : Int) :
    ∀ (qs : List (List Sample)) (i : Nat),
      (collectVehicles cfg v i qs).ok = false →
      ∀ e ∈ (collectVehicles cfg v i qs).events,
        i ≤ e.actor ∧ e.actor < (collectVehicles cfg v i qs).failIdx ∧
        e.stream ≠ StreamId.pedestrianBoundingbox := by
  intro qs
  induction qs with
  | nil => intro i h; simp [collectVehicles] at h
  | cons q rest ih =>
    intro i h e he
    cases q with
    | nil => simp [collectVehicles] at he
    | cons s q =>
      simp only [collectVehicles] at h he ⊢
      have hge := collectVehicles_fail_ge cfg v rest (i + 1) h
      rcases List.mem_append.mp he with h1 | h2
      · have hae : e.actor = i ∧ e.stream ≠ StreamId.pedestrianBoundingbox := by
          by_cases hw : 0 ≤ v ∧ cfg.save ≠ ""
          · rw [if_pos hw] at h1
            simp only [List.mem_cons, List.not_mem_nil, or_false] at h1
            rcases h1 with rfl | rfl | rfl <;> exact ⟨rfl, by simp⟩
          · rw [if_neg hw] at h1
            cases h1
        exact ⟨by omega, by omega, hae.2⟩
      · have hrec := ih (i + 1) h e h2
        exact ⟨by omega, hrec.2.1, hrec.2.2⟩

/-- C2 (amended): if some vehicle's mailbox pop times out during a tick,
the frame index does not advance, no frame is committed, and a
missing-data error is logged; but the abort is not atomic: the
vehicle-stream entries written before the timeout (for vehicle indices
below the failing one) stay in the store log for that tick.  Only the
walker stream is guaranteed untouched.  The original "no entry of any of
the four streams is modified" is refuted by the counterexample. -/
theorem timeout_tick_behavior (cfg : Config) (arrivals : List (List Sample))
    (st : LoopState) (h : (tickCollect cfg arrivals st).ok = false) :
    (tickStep cfg arrivals st).savedFrames = st.savedFrames ∧
    (tickStep cfg arrivals st).errors = st.errors + 1 ∧
    (tickStep cfg arrivals st).commits = st.commits ∧
    (tickStep cfg arrivals st).writes
      = st.writes ++ (tickCollect cfg arrivals st).events ∧
    (∀ e ∈ (tickCollect cfg arrivals st).events,
      e.actor < (tickCollect cfg arrivals st).failIdx ∧
      e.stream ≠ StreamId.pedestrianBoundingbox) := by
  refine ⟨by simp [tickStep, h], by simp [tickStep, h], by simp [tickStep, h],
    by simp [tickStep, h], ?_⟩
  intro e he
  rw [tickCollect] at h he ⊢
  have := collectVehicles_fail_events cfg st.savedFrames (tickQueues arrivals st) 0 h e he
  exact ⟨this.2.1, this.2.2⟩

/-- Two vehicles, one walker, recording from the first tick, output
configured. -/
def cfgTimeout : Config := ⟨5, 0, 2, 1, 3, "out.h5"⟩

/-- C2 (counterexample): two vehicles recording at frame index 0; sensor 0
delivers a sample, sensor 1 does not, so vehicle 1's pop times out.  The
frame index does not advance and the error is logged, yet the three
vehicle-stream entries of vehicle 0 at frame index 0 were already written
during that tick — the store log is not empty, contradicting "no entry of
any of the four FrameStore streams at the current frame-index is
modified". -/
theorem store_modified_on_timeout :
    (tickStep cfgTimeout [[sampleA], []] (initState cfgTimeout)).savedFrames
      = (initState cfgTimeout).savedFrames ∧
    (tickStep cfgTimeout [[sampleA], []] (initState cfgTimeout)).errors = 1 ∧
    (tickStep cfgTimeout [[sampleA], []] (initState cfgTimeout)).writes
      = [⟨StreamId.pointCloud, 0, 0⟩, ⟨StreamId.lidarPose, 0, 0⟩,
         ⟨StreamId.vehicleBoundingbox, 0, 0⟩] ∧
    (tickStep cfgTimeout [[sampleA], []] (initState cfgTimeout)).writes ≠ [] :=
  ⟨by decide, by decide, by decide, by decide⟩

/-- Witness: timeout_tick_behavior holds at a concrete timeout tick (two
vehicles, sensor 1 silent). -/
theorem timeout_tick_behavior_witness :
    ((tickCollect cfgTimeout [[sampleA], []] (initState cfgTimeout)).ok = false) ∧
    ((tickStep cfgTimeout [[sampleA], []] (initState cfgTimeout)).savedFrames
        = (initState cfgTimeout).savedFrames ∧
     (tickStep cfgTimeout [[sampleA], []] (initState cfgTimeout)).errors
        = (initState cfgTimeout).errors + 1 ∧
     (tickStep cfgTimeout [[sampleA], []] (initState cfgTimeout)).commits
        = (initState cfgTimeout).commits ∧
     (tickStep cfgTimeout [[sampleA], []] (initState cfgTimeout)).writes
        = (initState cfgTimeout).writes
          ++ (tickCollect cfgTimeout [[sampleA], []] (initState cfgTimeout)).events ∧
     (∀ e ∈ (tickCollect cfgTimeout [[sampleA], []] (initState cfgTimeout)).events,
        e.actor < (tickCollect cfgTimeout [[sampleA], []] (initState cfgTimeout)).failIdx ∧
        e.stream ≠ StreamId.pedestrianBoundingbox)) :=
  ⟨by decide,
   timeout_tick_behavior cfgTimeout [[sampleA], []] (initState cfgTimeout) (by decide)⟩

/-! ### Pedestrian spawn retry loop and the cleanup block -/

/-- What one iteration of the pedestrian-spawn while loop observes: the
drawn navigation location is outside the radius (continue), the spawn
attempt collides (Walker.__init__ registers nothing), or the walker is
spawned. -/
inductive PedOutcome
  | tooFar
  | collision
  | success
deriving DecidableEq, Repr

/-- How the pedestrian-spawn loop ends: exit(1) after the retry cap
(fatal, with the number spawned so far), the requested count reached, or
the modelled outcome stream ran out (never happens in the real program,
where locations are drawn indefinitely). -/
inductive PedResult
  | fatal (spawned : Nat)
  | done (spawned : Nat)
  | starved (spawned : Nat)
deriving DecidableEq, Repr

/-- The while loop spawning walkers: while fewer than `goal` walkers are
registered, increment retries, exit(1) when retries exceeds 1000, else
draw a candidate and count it when the spawn succeeds.  Every iteration
— successful, colliding, or out-of-radius — increments retries. -/
def spawnPedLoop (goal : Nat) : Nat → Nat → List PedOutcome → PedResult
  | spawned, retries, [] =>
    if goal ≤ spawned then .done spawned
    else if 1000 < retries + 1 then .fatal spawned
    else .starved spawned
  | spawned, retries, o :: rest =>
    if goal ≤ spawned then .done spawned
    else if 1000 < retries + 1 then .fatal spawned
    else spawnPedLoop goal (if o = .success then spawned + 1 else spawned) (retries + 1) rest

/-- One destroy call issued by the cleanup block, tagged with the actor
identity it belongs to. -/
inductive DestroyEvent
  | lidar (id : Nat)
  | vehicleBody (id : Nat)
  | controllerStop (id : Nat)
  | controllerDestroy (id : Nat)
  | walkerBody (id : Nat)
deriving DecidableEq, Repr

/-- Vehicle.destroy: the attached lidar first, then the vehicle body. -/
def vehicleDestroy (id : Nat) : List DestroyEvent :=
  [.lidar id, .vehicleBody id]

/-- Walker.destroy: stop and destroy the attached controller, then the
walker body. -/
def walkerDestroy (id : Nat) : List DestroyEvent :=
  [.controllerStop id, .controllerDestroy id, .walkerBody id]

/-- The finally block of main: one pass over
Vehicle.instances + Walker.instances, calling destroy on each handle. -/
def cleanupEvents (vehicles walkers : List Nat) : List DestroyEvent :=
  (vehicles.map vehicleDestroy).flatten ++ (walkers.map walkerDestroy).flatten

/-- How the try block of main ended: normal completion, the exit(1) of
the pedestrian retry cap, or an external KeyboardInterrupt. -/
inductive BodyOutcome
  | completed
  | pedFatal
  | interrupted
deriving DecidableEq, Repr

/-- Process exit status: exit(1) raises SystemExit(1) which survives the
finally blocks; KeyboardInterrupt is swallowed at top level (pass), and
normal completion exits 0. -/
def exitCodeOf : BodyOutcome → Nat
  | .pedFatal => 1
  | _ => 0

/-- What is observable after main returns, however the try block ended. -/
structure MainResult where
  destroyEvents : List DestroyEvent
  vehiclesAfter : List Nat
  walkersAfter : List Nat
  exitCode : Nat
deriving DecidableEq, Repr

/-- main with its try/finally: whatever the outcome of the body, the
finally block destroys every registered handle (vehicles first, then
walkers) and clears both instance registries; the exit status depends
only on how the body ended. -/
def mainRun (outcome : BodyOutcome) (vehicles walkers : List Nat) : MainResult :=
  { destroyEvents := cleanupEvents vehicles walkers
    vehiclesAfter := []
    walkersAfter := []
    exitCode := exitCodeOf outcome }

/-- The body outcome produced by the pedestrian-spawn phase. -/
def pedPhaseOutcome (goal : Nat) (outcomes : List PedOutcome) : BodyOutcome :=
  match spawnPedLoop goal 0 0 outcomes with
  | .fatal _ => .pedFatal
  | _ => .completed

/-- If the goal is not yet reached, the first 1000 - retries candidates
all fail, and the stream reaches the cap, the loop exits fatally with the
current count. -/
theorem spawnPedLoop_fatal (goal : Nat) :
    ∀ (outcomes : List PedOutcome) (spawned retries : Nat),
      spawned < goal →
      (∀ o ∈ outcomes.take (1000 - retries), o ≠ PedOutcome.success) →
      1000 ≤ retries + outcomes.length →
      spawnPedLoop goal spawned retries outcomes = .fatal spawned := by
  intro outcomes
  induction outcomes with
  | nil =>
    intro spawned retries hlt _ hlen
    rw [spawnPedLoop, if_neg (by omega), if_pos (by simp at hlen; omega)]
  | cons o rest ih =>
    intro spawned retries hlt hfail hlen
    by_cases hcap : 1000 < retries + 1
    · rw [spawnPedLoop, if_neg (by omega), if_pos hcap]
    · have hr : retries < 1000 := by omega
      have hone : 1000 - retries = (1000 - (retries + 1)) + 1 := by omega
      rw [hone, List.take_succ_cons] at hfail
      have ho : o ≠ PedOutcome.success := hfail o (List.mem_cons_self o _)
      have hrest : ∀ x ∈ rest.take (1000 - (retries + 1)), x ≠ PedOutcome.success :=
        fun x hx => hfail x (List.mem_cons_of_mem o hx)
      rw [spawnPedLoop, if_neg (by omega), if_neg hcap]
      rw [if_neg ho]
      exact ih spawned (retries + 1) hlt hrest (by simp at hlen ⊢; omega)

/-- Failed candidates below the cap are merely retried: consuming k
non-success outcomes (with the cap not yet reached) leaves the loop
running with retries advanced by k. -/
theorem spawnPedLoop_skip_failures (goal : Nat) (hgoal : 0 < goal) :
    ∀ (k retries : Nat) (rest : List PedOutcome), retries + k ≤ 1000 →
      spawnPedLoop goal 0 retries (List.replicate k PedOutcome.collision ++ rest)
        = spawnPedLoop goal 0 (retries + k) rest := by
  intro k
  induction k with
  | zero => intro retries rest _; rfl
  | succ k ih =>
    intro retries rest hcap
    have hrep : List.replicate (k + 1) PedOutcome.collision ++ rest
        = PedOutcome.collision :: (List.replicate k PedOutcome.collision ++ rest) := rfl
    rw [hrep, spawnPedLoop, if_neg (by omega), if_neg (by omega)]
    have : (if PedOutcome.collision = PedOutcome.success then 0 + 1 else 0) = 0 := rfl
    rw [this, ih (retries + 1) rest (by omega)]
    congr 1
    omega

/-- Once the requested count is reached the loop stops at once. -/
theorem spawnPedLoop_done (goal spawned retries : Nat) (h : goal ≤ spawned) :
    ∀ l, spawnPedLoop goal spawned retries l = .done spawned := by
  intro l
  cases l with
  | nil => rw [spawnPedLoop, if_pos h]
  | cons o rest => rw [spawnPedLoop, if_pos h]

/-- Enough successful candidates within the cap finish the loop with
exactly the requested count. -/
theorem spawnPedLoop_succeeds (goal : Nat) :
    ∀ (k spawned retries : Nat) (rest : List PedOutcome),
      spawned ≤ goal → goal ≤ spawned + k → retries + (goal - spawned) ≤ 1000 →
      spawnPedLoop goal spawned retries (List.replicate k PedOutcome.success ++ rest)
        = .done goal := by
  intro k
  induction k with
  | zero =>
    intro spawned retries rest hle hge _
    have heq : spawned = goal := by omega
    rw [spawnPedLoop_done goal spawned retries (by omega), heq]
  | succ k ih =>
    intro spawned retries rest hle hge hcap
    by_cases hdone : goal ≤ spawned
    · have heq : spawned = goal := by omega
      rw [spawnPedLoop_done goal spawned retries hdone, heq]
    · have hrep : List.replicate (k + 1) PedOutcome.success ++ rest
          = PedOutcome.success :: (List.replicate k PedOutcome.success ++ rest) := rfl
      rw [hrep, spawnPedLoop, if_neg hdone, if_neg (by omega)]
      have : (if PedOutcome.success = PedOutcome.success then spawned + 1 else spawned)
          = spawned + 1 := rfl
      rw [this]
      exact ih (spawned + 1) (retries + 1) rest (by omega) (by omega) (by omega)

/-- C5: if pedestrian placement fails 1000 times before the requested
count is reached — with the cap counting loop iterations, this means the
first 1000 candidates all fail — then the loop hits exit(1): the process
status is non-zero, and the guaranteed finally-block cleanup still runs
(every registered handle destroyed, both registries cleared).  Failures
below the cap are retried with a new candidate and are not fatal: k
failed candidates followed by enough successes still within the cap end
with exactly the requested count. -/
theorem pedestrian_cap_fatal_cleanup (goal : Nat) (outcomes : List PedOutcome)
    (vs ws : List Nat) (hgoal : 0 < goal) (hlen : 1000 ≤ outcomes.length)
    (hfail : ∀ o ∈ outcomes.take 1000, o ≠ PedOutcome.success) :
    spawnPedLoop goal 0 0 outcomes = .fatal 0 ∧
    (mainRun (pedPhaseOutcome goal outcomes) vs ws).exitCode = 1 ∧
    (mainRun (pedPhaseOutcome goal outcomes) vs ws).vehiclesAfter = [] ∧
    (mainRun (pedPhaseOutcome goal outcomes) vs ws).walkersAfter = [] ∧
    (mainRun (pedPhaseOutcome goal outcomes) vs ws).destroyEvents = cleanupEvents vs ws ∧
    (∀ (k : Nat) (rest : List PedOutcome), k + goal ≤ 1000 →
      spawnPedLoop goal 0 0
        (List.replicate k PedOutcome.collision
          ++ List.replicate goal PedOutcome.success ++ rest) = .done goal) := by
  have hfat : spawnPedLoop goal 0 0 outcomes = .fatal 0 := by
    apply spawnPedLoop_fatal goal outcomes 0 0 hgoal ?_ (by omega)
    simpa using hfail
  refine ⟨hfat, ?_, rfl, rfl, rfl, ?_⟩
  · show exitCodeOf (pedPhaseOutcome goal outcomes) = 1
    rw [pedPhaseOutcome, hfat]
    rfl
  · intro k rest hk
    rw [List.append_assoc, spawnPedLoop_skip_failures goal hgoal k 0 _ (by omega),
      Nat.zero_add]
    exact spawnPedLoop_succeeds goal goal 0 k rest (by omega) (by omega) (by omega)

/-- Witness: pedestrian_cap_fatal_cleanup at goal 1 with 1000 colliding
candidates, one vehicle and one walker registered. -/
theorem pedestrian_cap_fatal_cleanup_witness :
    (0 < 1 ∧ 1000 ≤ (List.replicate 1000 PedOutcome.collision).length ∧
      (∀ o ∈ (List.replicate 1000 PedOutcome.collision).take 1000,
        o ≠ PedOutcome.success)) ∧
    (spawnPedLoop 1 0 0 (List.replicate 1000 PedOutcome.collision) = .fatal 0 ∧
     (mainRun (pedPhaseOutcome 1 (List.replicate 1000 PedOutcome.collision))
        [4] [7]).exitCode = 1 ∧
     (mainRun (pedPhaseOutcome 1 (List.replicate 1000 PedOutcome.collision))
        [4] [7]).vehiclesAfter = [] ∧
     (mainRun (pedPhaseOutcome 1 (List.replicate 1000 PedOutcome.collision))
        [4] [7]).walkersAfter = [] ∧
     (mainRun (pedPhaseOutcome 1 (List.replicate 1000 PedOutcome.collision))
        [4] [7]).destroyEvents = cleanupEvents [4] [7] ∧
     (∀ (k : Nat) (rest : List PedOutcome), k + 1 ≤ 1000 →
        spawnPedLoop 1 0 0
          (List.replicate k PedOutcome.collision
            ++ List.replicate 1 PedOutcome.success ++ rest) = .done 1)) :=
  ⟨⟨Nat.one_pos, by simp only [List.length_replicate, le_refl],
    by intro o ho; rw [List.take_replicate, List.mem_replicate] at ho; rw [ho.2]; decide⟩,
   pedestrian_cap_fatal_cleanup 1 (List.replicate 1000 PedOutcome.collision) [4] [7]
     Nat.one_pos (by simp only [List.length_replicate, le_refl])
     (by intro o ho; rw [List.take_replicate, List.mem_replicate] at ho; rw [ho.2]; decide)⟩

/-- The vehicle pass of the cleanup issues one vehicle-body destroy per
occurrence in the vehicle registry. -/
theorem count_vehicleBody_vehicles (v : Nat) :
    ∀ vs : List Nat,
      ((vs.map vehicleDestroy).flatten.count (DestroyEvent.vehicleBody v)) = vs.count v := by
  intro vs
  induction vs with
  | nil => rfl
  | cons a rest ih =>
    by_cases h : a = v
    · subst h
      simp [vehicleDestroy, List.count_cons, List.count_append, ih]
    · simp [vehicleDestroy, List.count_cons, List.count_append, ih, h, Ne.symm h]

/-- The walker pass issues no vehicle-body destroy. -/
theorem count_vehicleBody_walkers (v : Nat) :
    ∀ ws : List Nat,
      ((ws.map walkerDestroy).flatten.count (DestroyEvent.vehicleBody v)) = 0 := by
  intro ws
  induction ws with
  | nil => rfl
  | cons a rest ih => simp [walkerDestroy, List.count_cons, List.count_append, ih]

/-- The walker pass issues one walker-body destroy per occurrence in the
walker registry. -/
theorem count_walkerBody_walkers (w : Nat) :
    ∀ ws : List Nat,
      ((ws.map walkerDestroy).flatten.count (DestroyEvent.walkerBody w)) = ws.count w := by
  intro ws
  induction ws with
  | nil => rfl
  | cons a rest ih =>
    by_cases h : a = w
    · subst h
      simp [walkerDestroy, List.count_cons, List.count_append, ih]
    · simp [walkerDestroy, List.count_cons, List.count_append, ih, h, Ne.symm h]

/-- The vehicle pass issues no walker-body destroy. -/
theorem count_walkerBody_vehicles (w : Nat) :
    ∀ vs : List Nat,
      ((vs.map vehicleDestroy).flatten.count (DestroyEvent.walkerBody w)) = 0 := by
  intro vs
  induction vs with
  | nil => rfl
  | cons a rest ih => simp [vehicleDestroy, List.count_cons, List.count_append, ih]

/-- Each registered element contributes its own contiguous block to the
flattened per-element event lists. -/
theorem flatten_block_of_mem {α β : Type} (f : α → List β) :
    ∀ (l : List α) (a : α), a ∈ l →
      ∃ pre post, (l.map f).flatten = pre ++ f a ++ post := by
  intro l
  induction l with
  | nil => intro a ha; cases ha
  | cons b rest ih =>
    intro a ha
    rcases List.mem_cons.mp ha with rfl | hmem
    · exact ⟨[], (rest.map f).flatten, by simp⟩
    · obtain ⟨pre, post, hp⟩ := ih a hmem
      exact ⟨f b ++ pre, post, by simp [hp]⟩

/-- Whether a destroy call releases an actor body (rather than an
attached sensor or controller). -/
def isBodyDestroy : DestroyEvent → Bool
  | .vehicleBody _ => true
  | .walkerBody _ => true
  | _ => false

/-- C6 (amended): on every exit path of main (normal completion, the
pedestrian-cap exit(1), or an external interruption) the finally block
issues exactly one body-destroy per registered actor, in a single pass
over vehicles followed by walkers, each handle releasing its attached
lidar / controller immediately before its own body; both registries are
cleared afterwards.  The release is not performed as two global passes
(all attached resources first, then all bodies): see the
counterexample. -/
theorem cleanup_complete_per_actor (o : BodyOutcome) (vs ws : List Nat)
    (hv : vs.Nodup) (hw : ws.Nodup) :
    (mainRun o vs ws).vehiclesAfter = [] ∧
    (mainRun o vs ws).walkersAfter = [] ∧
    (mainRun o vs ws).destroyEvents = cleanupEvents vs ws ∧
    (∀ v ∈ vs, (mainRun o vs ws).destroyEvents.count (DestroyEvent.vehicleBody v) = 1 ∧
      ∃ pre post, (mainRun o vs ws).destroyEvents = pre ++ vehicleDestroy v ++ post) ∧
    (∀ w ∈ ws, (mainRun o vs ws).destroyEvents.count (DestroyEvent.walkerBody w) = 1 ∧
      ∃ pre post, (mainRun o vs ws).destroyEvents = pre ++ walkerDestroy w ++ post) := by
  refine ⟨rfl, rfl, rfl, ?_, ?_⟩
  · intro v hvm
    constructor
    · show (cleanupEvents vs ws).count (DestroyEvent.vehicleBody v) = 1
      rw [cleanupEvents, List.count_append, count_vehicleBody_vehicles,
        count_vehicleBody_walkers, Nat.add_zero]
      exact List.count_eq_one_of_mem hv hvm
    · obtain ⟨pre, post, hp⟩ := flatten_block_of_mem vehicleDestroy vs v hvm
      exact ⟨pre, post ++ (ws.map walkerDestroy).flatten,
        by show cleanupEvents vs ws = _; rw [cleanupEvents, hp]; simp⟩
  · intro w hwm
    constructor
    · show (cleanupEvents vs ws).count (DestroyEvent.walkerBody w) = 1
      rw [cleanupEvents, List.count_append, count_walkerBody_vehicles,
        count_walkerBody_walkers, Nat.zero_add]
      exact List.count_eq_one_of_mem hw hwm
    · obtain ⟨pre, post, hp⟩ := flatten_block_of_mem walkerDestroy ws w hwm
      exact ⟨(vs.map vehicleDestroy).flatten ++ pre, post,
        by show cleanupEvents vs ws = _; rw [cleanupEvents, hp]; simp⟩

/-- C6 (counterexample): with two registered vehicles the destroy call
sequence is lidar 0, body 0, lidar 1, body 1: vehicle 0's body is
destroyed before vehicle 1's lidar, so the release is one interleaved
pass per actor, not two passes with every attached sensor/controller
released before the bodies. -/
theorem cleanup_not_two_pass :
    cleanupEvents [0, 1] []
      = [DestroyEvent.lidar 0, DestroyEvent.vehicleBody 0,
         DestroyEvent.lidar 1, DestroyEvent.vehicleBody 1] ∧
    ¬ (∀ i j : Nat, i < (cleanupEvents [0, 1] []).length →
        j < (cleanupEvents [0, 1] []).length →
        isBodyDestroy ((cleanupEvents [0, 1] []).getD i (DestroyEvent.lidar 0)) = false →
        isBodyDestroy ((cleanupEvents [0, 1] []).getD j (DestroyEvent.lidar 0)) = true →
        i < j) := by
  refine ⟨by decide, ?_⟩
  intro h
  have := h 2 1 (by decide) (by decide) (by decide) (by decide)
  omega

/-- Witness: cleanup_complete_per_actor at two vehicles and one walker,
on the normal-completion exit path. -/
theorem cleanup_complete_per_actor_witness :
    ([0, 1].Nodup ∧ [5].Nodup) ∧
    ((mainRun .completed [0, 1] [5]).vehiclesAfter = [] ∧
     (mainRun .completed [0, 1] [5]).walkersAfter = [] ∧
     (mainRun .completed [0, 1] [5]).destroyEvents = cleanupEvents [0, 1] [5] ∧
     (∀ v ∈ [0, 1],
        (mainRun .completed [0, 1] [5]).destroyEvents.count (DestroyEvent.vehicleBody v) = 1 ∧
        ∃ pre post,
          (mainRun .completed [0, 1] [5]).destroyEvents = pre ++ vehicleDestroy v ++ post) ∧
     (∀ w ∈ [5],
        (mainRun .completed [0, 1] [5]).destroyEvents.count (DestroyEvent.walkerBody w) = 1 ∧
        ∃ pre post,
          (mainRun .completed [0, 1] [5]).destroyEvents = pre ++ walkerDestroy w ++ post)) :=
  ⟨⟨by decide, by decide⟩,
   cleanup_complete_per_actor .completed [0, 1] [5] (by decide) (by decide)⟩

/-! ### Point-cloud padding, lidar mount height, spawn-point aliasing,
transformPts -/

/-- One point-cloud row: x, y, z, intensity. -/
abbrev Pt4 := ℚ × ℚ × ℚ × ℚ

/-- The constant row used by np.pad in mode constant. -/
def zeroRow : Pt4 := (0, 0, 0, 0)

/-- np.pad(pcl, ((0, points_per_cloud - len(pcl)), (0, 0)), constant):
append zero rows up to the configured length. -/
def padCloud (ppc : Nat) (pcl : List Pt4) : List Pt4 :=
  pcl ++ List.replicate (ppc - pcl.length) zeroRow

/-- C7: for a sample whose point cloud has at most points-per-cloud rows,
the padded cloud written to storage has exactly points-per-cloud rows,
the original rows as a contiguous prefix, and all-zero rows as the
remainder — the source data is never truncated. -/
theorem pad_cloud_spec (ppc : Nat) (pcl : List Pt4) (h : pcl.length ≤ ppc) :
    (padCloud ppc pcl).length = ppc ∧
    (padCloud ppc pcl).take pcl.length = pcl ∧
    (padCloud ppc pcl).drop pcl.length = List.replicate (ppc - pcl.length) zeroRow := by
  refine ⟨?_, ?_, ?_⟩
  · rw [padCloud, List.length_append, List.length_replicate]
    omega
  · rw [padCloud, List.take_left]
  · rw [padCloud, List.drop_left]

/-- Witness: pad_cloud_spec at a one-row cloud padded to three rows. -/
theorem pad_cloud_spec_witness :
    ([((1 : ℚ), (2 : ℚ), (3 : ℚ), (4 : ℚ))].length ≤ 3) ∧
    ((padCloud 3 [(1, 2, 3, 4)]).length = 3 ∧
     (padCloud 3 [(1, 2, 3, 4)]).take [((1 : ℚ), (2 : ℚ), (3 : ℚ), (4 : ℚ))].length
       = [(1, 2, 3, 4)] ∧
     (padCloud 3 [(1, 2, 3, 4)]).drop [((1 : ℚ), (2 : ℚ), (3 : ℚ), (4 : ℚ))].length
       = List.replicate (3 - [((1 : ℚ), (2 : ℚ), (3 : ℚ), (4 : ℚ))].length) zeroRow) :=
  ⟨by decide, pad_cloud_spec 3 [(1, 2, 3, 4)] (by decide)⟩

/-- Bounding-box half extents of a vehicle (extent.x, extent.y,
extent.z). -/
structure Extent where
  x : ℝ
  y : ℝ
  z : ℝ

/-- np.radians: degrees to radians. -/
noncomputable def radians (d : ℝ) : ℝ := d * Real.pi / 180

/-- The z coordinate of the lidar spawn transform in Vehicle.__init__:
hp = max(extent.x, extent.y) * tan(radians(-lower_fov)) and the sensor
sits at z = 2 * extent.z + hp above the vehicle origin. -/
noncomputable def lidarMountZ (ext : Extent) (lowerFov : ℝ) : ℝ :=
  2 * ext.z + max ext.x ext.y * Real.tan (radians (-lowerFov))

/-- The formula as the specification states it: height = 2·z_extent +
max(x_extent, y_extent)·tan(−lower_fov), the angle in degrees. -/
noncomputable def specMountHeight (ext : Extent) (lowerFov : ℝ) : ℝ :=
  2 * ext.z + max ext.x ext.y * Real.tan (-lowerFov * Real.pi / 180)

/-- C8: the lidar mount height computed at spawn equals the
specification formula 2·z + max(x, y)·tan(−θ) for every half-extent
triple and every lower field-of-view angle, and at half-extents
(1, 2, 0.75) with θ = −25° it is 2·0.75 + 2·tan(25°) (scenario D). -/
theorem lidar_mount_height_formula :
    (∀ (ext : Extent) (lowerFov : ℝ), lidarMountZ ext lowerFov = specMountHeight ext lowerFov) ∧
    lidarMountZ ⟨1, 2, 3 / 4⟩ (-25) = 3 / 2 + 2 * Real.tan (25 * Real.pi / 180) := by
  constructor
  · intro ext lowerFov
    rfl
  · rw [lidarMountZ, radians]
    rw [show max (1 : ℝ) 2 = 2 from max_eq_right (by norm_num)]
    norm_num

/-- Reading back the entry just written by List.set. -/
theorem getD_set_self : ∀ (l : List ℚ) (i : Nat) (a : ℚ), i < l.length →
    (l.set i a).getD i 0 = a := by
  intro l
  induction l with
  | nil => intro i a h; simp at h
  | cons b rest ih =>
    intro i a h
    cases i with
    | zero => rfl
    | succ i => exact ih i a (by simpa using h)

/-- List.set does not change other entries. -/
theorem getD_set_ne : ∀ (l : List ℚ) (i j : Nat) (a : ℚ), i ≠ j →
    (l.set i a).getD j 0 = l.getD j 0 := by
  intro l
  induction l with
  | nil => intro i j a _; rfl
  | cons b rest ih =>
    intro i j a h
    cases i with
    | zero =>
      cases j with
      | zero => exact absurd rfl h
      | succ j => rfl
    | succ i =>
      cases j with
      | zero => rfl
      | succ j => exact ih i j a (by omega)

/-- The vehicle-population loop: the shared spawn-point list is modelled
by the z coordinates of its transforms; each attempt picks an index,
adds 0.3 to that entry in place (transform.location.z += 0.3 mutates the
shared object), and spawns at the updated height.  Returns the list
after all attempts and the heights tried, in order. -/
def spawnAttempts : List ℚ → List Nat → List ℚ × List ℚ
  | pts, [] => (pts, [])
  | pts, i :: rest =>
    let z := pts.getD i 0 + 3 / 10
    let r := spawnAttempts (pts.set i z) rest
    (r.1, z :: r.2)

/-- C9: spawn candidates are drawn by reference from the shared list, so
each attempt raises the chosen candidate by 0.3 in place: the height
tried at attempt j equals the candidate's original z plus 0.3 times the
number of times that candidate was chosen among attempts 0..j — a
candidate chosen k times is tried 0.3·k above its original transform,
not at it. -/
theorem spawn_candidate_height_drift :
    ∀ (choices : List Nat) (pts : List ℚ) (j : Nat),
      (∀ c ∈ choices, c < pts.length) → j < choices.length →
      (spawnAttempts pts choices).2.getD j 0
        = pts.getD (choices.getD j 0) 0
          + 3 / 10 * ((((choices.take (j + 1)).count (choices.getD j 0)) : Nat) : ℚ) := by
  intro choices
  induction choices with
  | nil => intro pts j _ hj; simp at hj
  | cons i rest ih =>
    intro pts j hvalid hj
    cases j with
    | zero =>
      show pts.getD i 0 + 3 / 10 = _
      have h1 : ((i :: rest).getD 0 0) = i := rfl
      have h2 : (i :: rest).take 1 = [i] := rfl
      rw [h1, h2]
      have h3 : ([i].count i) = 1 := by simp
      rw [h3]
      push_cast
      ring
    | succ j =>
      have hz : (spawnAttempts pts (i :: rest)).2.getD (j + 1) 0
          = (spawnAttempts (pts.set i (pts.getD i 0 + 3 / 10)) rest).2.getD j 0 := rfl
      have hvalid' : ∀ c ∈ rest, c < (pts.set i (pts.getD i 0 + 3 / 10)).length := by
        intro c hc
        rw [List.length_set]
        exact hvalid c (List.mem_cons_of_mem i hc)
      have hj' : j < rest.length := by simpa using hj
      rw [hz, ih (pts.set i (pts.getD i 0 + 3 / 10)) j hvalid' hj']
      have hc : ((i :: rest).getD (j + 1) 0) = rest.getD j 0 := rfl
      have htake : (i :: rest).take (j + 1 + 1) = i :: rest.take (j + 1) := rfl
      rw [hc, htake]
      by_cases hci : rest.getD j 0 = i
      · rw [hci, getD_set_self pts i _ (hvalid i (List.mem_cons_self i rest)),
          List.count_cons_self]
        push_cast
        ring
      · rw [getD_set_ne pts i _ _ (fun he => hci he.symm),
          List.count_cons_of_ne hci]

/-- Witness: spawn_candidate_height_drift with two candidates, candidate
0 chosen twice: the second attempt at candidate 0 is tried at
1 + 0.3·2. -/
theorem spawn_candidate_height_drift_witness :
    ((∀ c ∈ [0, 0, 1], c < ([1, 5] : List ℚ).length) ∧ 1 < [0, 0, 1].length) ∧
    (spawnAttempts [1, 5] [0, 0, 1]).2.getD 1 0
      = ([1, 5] : List ℚ).getD ([0, 0, 1].getD 1 0) 0
        + 3 / 10 * (((([0, 0, 1].take (1 + 1)).count ([0, 0, 1].getD 1 0)) : Nat) : ℚ) :=
  ⟨⟨by decide, by decide⟩,
   spawn_candidate_height_drift [0, 0, 1] [1, 5] 1 (by decide) (by decide)⟩

/-- A 4×4 pose matrix (row-major), as returned by
transform.get_matrix() or transform.get_inverse_matrix(). -/
abbrev Mat4 := List (List ℚ)

/-- One matrix entry, row r column c. -/
def matEntry (m : Mat4) (r c : Nat) : ℚ := (m.getD r []).getD c 0

/-- Component r of one row of np.dot(pts, mat.T). -/
def rowDot (m : Mat4) (r : Nat) (p : Pt4) : ℚ :=
  p.1 * matEntry m r 0 + p.2.1 * matEntry m r 1
    + p.2.2.1 * matEntry m r 2 + p.2.2.2 * matEntry m r 3

/-- transformPts: save the intensity column, overwrite the input's fourth
column with 1 (in place — this mutates the caller's array), multiply by
the transpose of the selected pose matrix, and concatenate the first
three result columns with the saved intensities.  The pair holds the
fresh output array and the caller's array as the call leaves it. -/
def transformPts (m : Mat4) (pts : List Pt4) : List Pt4 × List Pt4 :=
  let intensity := pts.map (fun p => p.2.2.2)
  let ptsMut := pts.map (fun p => (p.1, p.2.1, p.2.2.1, (1 : ℚ)))
  let ptst := ptsMut.map (fun p => (rowDot m 0 p, rowDot m 1 p, rowDot m 2 p, rowDot m 3 p))
  (List.zipWith (fun q c => (q.1, q.2.1, q.2.2.1, c)) ptst intensity, ptsMut)

/-- Reading the fourth column back off the zipWith that reattaches the
saved intensities returns exactly those intensities. -/
theorem map_fourth_zipWith :
    ∀ (A : List Pt4) (B : List ℚ), A.length = B.length →
      (List.zipWith (fun q c => (q.1, q.2.1, q.2.2.1, c)) A B).map (fun p => p.2.2.2)
        = B := by
  intro A
  induction A with
  | nil =>
    intro B h
    cases B with
    | nil => rfl
    | cons b bs => simp at h
  | cons a A ih =>
    intro B h
    cases B with
    | nil => simp at h
    | cons b bs =>
      simp only [List.zipWith_cons_cons, List.map_cons]
      rw [ih bs (by simpa using h)]

/-- C10: the returned array's fourth (intensity) column equals the
input's original intensities, but the caller's input array is mutated in
place: after the call its fourth column is 1 everywhere (its first three
columns are untouched). -/
theorem transformPts_intensity_mutation (m : Mat4) (pts : List Pt4) :
    ((transformPts m pts).1.map (fun p => p.2.2.2) = pts.map (fun p => p.2.2.2)) ∧
    ((transformPts m pts).2.map (fun p => p.2.2.2) = pts.map (fun _ => (1 : ℚ))) ∧
    ((transformPts m pts).2.map (fun p => (p.1, p.2.1, p.2.2.1))
      = pts.map (fun p => (p.1, p.2.1, p.2.2.1))) := by
  refine ⟨?_, ?_, ?_⟩
  · show (List.zipWith (fun (q : Pt4) (c : ℚ) => (q.1, q.2.1, q.2.2.1, c))
        ((pts.map (fun p => (p.1, p.2.1, p.2.2.1, (1 : ℚ)))).map
          (fun p => (rowDot m 0 p, rowDot m 1 p, rowDot m 2 p, rowDot m 3 p)))
        (pts.map (fun p => p.2.2.2))).map (fun p => p.2.2.2)
      = pts.map (fun p => p.2.2.2)
    rw [map_fourth_zipWith _ _ (by simp)]
  · show (pts.map (fun p => (p.1, p.2.1, p.2.2.1, (1 : ℚ)))).map (fun p => p.2.2.2) = _
    rw [List.map_map]
    rfl
  · show (pts.map (fun p => (p.1, p.2.1, p.2.2.1, (1 : ℚ)))).map
        (fun p => (p.1, p.2.1, p.2.2.1)) = _
    rw [List.map_map]
    rfl
